import Mathlib

/-!
Verification of the mush-audit source-resolution and analysis pipeline.

Shallow embedding of `src/app/api/source/route.ts`, `src/utils/ai.ts` and
`src/utils/neversight-models.ts`.  JavaScript strings are Lean `String`s
(lists of characters); JSON values parsed by `JSON.parse` are modelled by the
`Json` inductive below, with JavaScript member access, truthiness,
`Object.entries` and string coercion modelled explicitly.  Network calls
(`fetch`) are modelled by an oracle function passed as a parameter; a
JavaScript exception is an `Except.error`.
-/

namespace MushAudit

/-! ## Character / string utilities (JS built-in semantics) -/

/-- JSON / JS whitespace used by `JSON.parse` and `parseInt`. -/
def isWsChar (c : Char) : Bool :=
  c = ' ' ∨ c = '\t' ∨ c = '\n' ∨ c = '\r'

/-- Drop leading whitespace from a character list. -/
def skipWs : List Char → List Char
  | [] => []
  | c :: rest => if isWsChar c then skipWs rest else c :: rest

/-- Substring containment check (used for `String.prototype.includes`). -/
def containsSub (hay needle : List Char) : Bool :=
  match hay with
  | [] => needle.isEmpty
  | _ :: rest => needle.isPrefixOf hay || containsSub rest needle

/-- JS `String.prototype.toLowerCase` (ASCII-relevant part). -/
def jsToLower (s : String) : String :=
  String.mk (s.data.map Char.toLower)

/-- JS `String.prototype.trim`: strip whitespace from both ends. -/
def jsTrim (s : String) : String :=
  String.mk (((s.data.dropWhile Char.isWhitespace).reverse.dropWhile Char.isWhitespace).reverse)

/-- JS `String.prototype.split('/')` on a character list. -/
def splitSlash : List Char → List (List Char)
  | [] => [[]]
  | c :: rest =>
    let r := splitSlash rest
    if c = '/' then [] :: r
    else
      match r with
      | h :: t => (c :: h) :: t
      | [] => [[c]]

/-- The expression `path.split('/').pop() || path` — the final path segment, or the whole
path when that segment is empty. -/
def lastSegment (p : String) : String :=
  let last := ((splitSlash p.data).getLast?).getD []
  if last.isEmpty then p else String.mk last

/-- Does the string start with the `{` character? -/
def startsWithLbrace (s : String) : Bool :=
  match s.data with
  | c :: _ => c = '\x7b'
  | [] => false

/-- JS `String.prototype.substring` with clamping and argument swapping. -/
def jsSubstring (s : String) (a b : Nat) : String :=
  let n := s.data.length
  let a' := min a n
  let b' := min b n
  let lo := min a' b'
  let hi := max a' b'
  String.mk ((s.data.drop lo).take (hi - lo))

/-- The brace-stripped interior: `sc.substring(1, sc.length - 1)`. -/
def interiorOf (sc : String) : String :=
  jsSubstring sc 1 (sc.data.length - 1)

/-- Numeric value of a list of decimal digits. -/
def decDigitsVal (l : List Char) : Nat :=
  l.foldl (fun acc c => acc * 10 + (c.toNat - '0'.toNat)) 0

def isHexDigitChar (c : Char) : Bool :=
  c.isDigit || ('a' ≤ c ∧ c ≤ 'f') || ('A' ≤ c ∧ c ≤ 'F')

def hexDigitVal (c : Char) : Nat :=
  if c.isDigit then c.toNat - '0'.toNat
  else if 'a' ≤ c ∧ c ≤ 'f' then c.toNat - 'a'.toNat + 10
  else c.toNat - 'A'.toNat + 10

def hexDigitsVal (l : List Char) : Nat :=
  l.foldl (fun acc c => acc * 16 + hexDigitVal c) 0

/-- JS `parseInt(s)` with no radix argument: skip whitespace, optional sign,
auto-detected `0x` hex prefix, longest digit prefix; `none` models `NaN`. -/
def parseIntJs (s : String) : Option Int :=
  let l := s.data.dropWhile isWsChar
  let (sign, l) : Int × List Char :=
    match l with
    | '-' :: r => (-1, r)
    | '+' :: r => (1, r)
    | _ => (1, l)
  match l with
  | '0' :: x :: r =>
    if x = 'x' ∨ x = 'X' then
      let hs := r.takeWhile isHexDigitChar
      if hs.isEmpty then none else some (sign * (hexDigitsVal hs : Int))
    else
      let ds := (('0' : Char) :: x :: r).takeWhile Char.isDigit
      some (sign * (decDigitsVal ds : Int))
  | _ =>
    let ds := l.takeWhile Char.isDigit
    if ds.isEmpty then none else some (sign * (decDigitsVal ds : Int))

/-! ## JSON values and JavaScript dynamic semantics

JSON numbers are kept as their raw lexeme (`num raw`): no claim depends on
numeric arithmetic, only on truthiness (zero / non-zero) and rendering, both
of which are decided from the lexeme.  Object fields are stored in insertion
order with duplicate keys resolved last-wins, as `JSON.parse` produces. -/

inductive Json where
  | null : Json
  | bool (b : Bool) : Json
  | num (raw : String) : Json
  | str (s : String) : Json
  | arr (elems : List Json) : Json
  | obj (fields : List (String × Json)) : Json
  deriving Repr

/-- JavaScript truthiness of a JSON value (a JSON number is falsy iff all of
its digits are `0`, which for JSON's number grammar is exactly value 0). -/
def jsTruthy : Json → Bool
  | .null => false
  | .bool b => b
  | .num raw => raw.data.any (fun c => c.isDigit && c ≠ '0')
  | .str s => !s.isEmpty
  | .arr _ => true
  | .obj _ => true

mutual

/-- JavaScript `String(v)` coercion of a JSON value. -/
def jsStringOfJson : Json → String
  | .null => "null"
  | .bool b => if b then "true" else "false"
  | .num raw => raw
  | .str s => s
  | .arr elems => String.intercalate "," (jsRenderElems elems)
  | .obj _ => "[object Object]"

/-- Array elements as rendered by `Array.prototype.toString` (`null` renders
as the empty string inside an array). -/
def jsRenderElems : List Json → List String
  | [] => []
  | .null :: rest => "" :: jsRenderElems rest
  | e :: rest => jsStringOfJson e :: jsRenderElems rest

end

/-- JavaScript member access `v.k`: throws (`error`) on `null`, yields
`undefined` (`none`) on primitives and missing keys. -/
def jsGet (v : Json) (k : String) : Except Unit (Option Json) :=
  match v with
  | .null => .error ()
  | .obj fields => .ok ((fields.find? (fun p => p.1 = k)).map (·.2))
  | _ => .ok none

/-- JS `Object.entries(v)` for the values it is applied to in the route
(`v` is never `null`/`undefined` at those call sites). -/
def jsEntries : Json → List (String × Json)
  | .obj fields => fields
  | .arr elems => elems.enum.map (fun p => (toString p.1, p.2))
  | .str s => s.data.enum.map (fun p => (toString p.1, Json.str (String.mk [p.2])))
  | _ => []

/-- Assignment into a JS object: an existing key keeps its position and is
overwritten, a new key is appended (so repeated JSON keys are last-wins). -/
def objInsert (fields : List (String × Json)) (k : String) (v : Json) :
    List (String × Json) :=
  if fields.any (fun p => p.1 = k) then
    fields.map (fun p => if p.1 = k then (k, v) else p)
  else fields ++ [(k, v)]

/-! ## A JSON parser modelling `JSON.parse`

Fuel-indexed recursive descent over the character list; the top-level fuel
`2 * length + 8` strictly dominates the number of recursive calls, so fuel
exhaustion never occurs on inputs `JSON.parse` accepts.  `\uXXXX` escapes
decode a single code unit (astral surrogate pairing is not modelled; no
claim involves astral characters). -/

def parseHex4 : List Char → Option (Nat × List Char)
  | a :: b :: c :: d :: rest =>
    if isHexDigitChar a && isHexDigitChar b && isHexDigitChar c && isHexDigitChar d then
      some (hexDigitsVal [a, b, c, d], rest)
    else none
  | _ => none

/-- Body of a JSON string after the opening quote; returns the decoded
content and the remainder after the closing quote. -/
def parseStringBody : Nat → List Char → Option (List Char × List Char)
  | 0, _ => none
  | _ + 1, [] => none
  | fuel + 1, c :: rest =>
    if c = '"' then some ([], rest)
    else if c = '\\' then
      match rest with
      | [] => none
      | e :: rest' =>
        let decoded : Option (Char × List Char) :=
          if e = '"' then some ('"', rest')
          else if e = '\\' then some ('\\', rest')
          else if e = '/' then some ('/', rest')
          else if e = 'b' then some ('\x08', rest')
          else if e = 'f' then some ('\x0c', rest')
          else if e = 'n' then some ('\n', rest')
          else if e = 'r' then some ('\r', rest')
          else if e = 't' then some ('\t', rest')
          else if e = 'u' then
            match parseHex4 rest' with
            | some (n, rest'') => some (Char.ofNat n, rest'')
            | none => none
          else none
        match decoded with
        | some (ch, rest'') =>
          match parseStringBody fuel rest'' with
          | some (content, rem) => some (ch :: content, rem)
          | none => none
        | none => none
    else if c.toNat < 0x20 then none
    else
      match parseStringBody fuel rest with
      | some (content, rem) => some (c :: content, rem)
      | none => none

/-- The lexeme of a JSON number (sign, integer part, optional fraction and
exponent, per the JSON grammar), with the remaining input. -/
def parseNumberLexeme (l : List Char) : Option (List Char × List Char) :=
  let (sign, l₁) : List Char × List Char :=
    match l with
    | '-' :: r => (['-'], r)
    | _ => ([], l)
  let intPart : Option (List Char × List Char) :=
    match l₁ with
    | '0' :: r => some (['0'], r)
    | c :: _ =>
      if c.isDigit then
        some (l₁.takeWhile Char.isDigit, l₁.dropWhile Char.isDigit)
      else none
    | [] => none
  match intPart with
  | none => none
  | some (ip, l₂) =>
    let fracPart : Option (List Char × List Char) :=
      match l₂ with
      | '.' :: r =>
        let ds := r.takeWhile Char.isDigit
        if ds.isEmpty then none else some ('.' :: ds, r.dropWhile Char.isDigit)
      | _ => some ([], l₂)
    match fracPart with
    | none => none
    | some (fp, l₃) =>
      let expPart : Option (List Char × List Char) :=
        match l₃ with
        | e :: r =>
          if e = 'e' ∨ e = 'E' then
            let (es, r') : List Char × List Char :=
              match r with
              | '+' :: r'' => (['+'], r'')
              | '-' :: r'' => (['-'], r'')
              | _ => ([], r)
            let ds := r'.takeWhile Char.isDigit
            if ds.isEmpty then none
            else some (e :: (es ++ ds), r'.dropWhile Char.isDigit)
          else some ([], l₃)
        | [] => some ([], l₃)
      match expPart with
      | none => none
      | some (ep, l₄) => some (sign ++ ip ++ fp ++ ep, l₄)

mutual

/-- Parse one JSON value (leading whitespace allowed). -/
def parseValue : Nat → List Char → Option (Json × List Char)
  | 0, _ => none
  | fuel + 1, l =>
    match skipWs l with
    | [] => none
    | c :: rest =>
      if c = 'n' then
        match rest with
        | 'u' :: 'l' :: 'l' :: r => some (.null, r)
        | _ => none
      else if c = 't' then
        match rest with
        | 'r' :: 'u' :: 'e' :: r => some (.bool true, r)
        | _ => none
      else if c = 'f' then
        match rest with
        | 'a' :: 'l' :: 's' :: 'e' :: r => some (.bool false, r)
        | _ => none
      else if c = '"' then
        match parseStringBody (rest.length + 1) rest with
        | some (content, rem) => some (.str (String.mk content), rem)
        | none => none
      else if c = '[' then
        match skipWs rest with
        | ']' :: r => some (.arr [], r)
        | l' => parseElems fuel l' []
      else if c = '\x7b' then
        match skipWs rest with
        | '\x7d' :: r => some (.obj [], r)
        | l' => parseMembers fuel l' []
      else
        match parseNumberLexeme (c :: rest) with
        | some (lexeme, rem) => some (.num (String.mk lexeme), rem)
        | none => none

/-- Parse the remaining elements of a non-empty array (accumulator holds the
elements already parsed, in reverse). -/
def parseElems : Nat → List Char → List Json → Option (Json × List Char)
  | 0, _, _ => none
  | fuel + 1, l, acc =>
    match parseValue fuel l with
    | none => none
    | some (v, rest) =>
      match skipWs rest with
      | ',' :: r => parseElems fuel r (v :: acc)
      | ']' :: r => some (.arr (v :: acc).reverse, r)
      | _ => none

/-- Parse the remaining members of a non-empty object. -/
def parseMembers : Nat → List Char → List (String × Json) →
    Option (Json × List Char)
  | 0, _, _ => none
  | fuel + 1, l, acc =>
    match skipWs l with
    | '"' :: rest =>
      match parseStringBody (rest.length + 1) rest with
      | none => none
      | some (key, rem) =>
        match skipWs rem with
        | ':' :: r =>
          match parseValue fuel r with
          | none => none
          | some (v, rest') =>
            let acc' := objInsert acc (String.mk key) v
            match skipWs rest' with
            | ',' :: r' => parseMembers fuel r' acc'
            | '\x7d' :: r' => some (.obj acc', r')
            | _ => none
        | _ => none
    | _ => none

end

/-- Model of `JSON.parse`: a complete value with only whitespace around it. -/
def parseJson (s : String) : Option Json :=
  match parseValue (2 * s.data.length + 8) s.data with
  | some (v, rest) => if (skipWs rest).isEmpty then some v else none
  | none => none

/-! ## Explorer client (`route.ts` lines 5–48, 63–90)

`result` payloads are a sum of the shapes the route distinguishes
dynamically: an array of `getsourcecode` items (`Array.isArray`), a string
(`typeof === 'string'`, the `getabi` shape), or any other JSON value. -/

/-- Type `SourceCodeResultItem` from `route.ts` (the explorer's `getsourcecode`
result element; `Implementation` is an optional field). -/
structure SourceCodeResultItem where
  SourceCode : String
  ContractName : String
  CompilerVersion : String
  OptimizationUsed : String
  Runs : String
  Implementation : Option String
  deriving Repr, DecidableEq

inductive ResultPayload where
  | items (xs : List SourceCodeResultItem)
  | str (s : String)
  | other (v : Json)
  deriving Repr

/-- Type `ExplorerApiResponse` from `route.ts`: all fields optional. -/
structure ExplorerApiResponse where
  status : Option String
  message : Option String
  result : Option ResultPayload
  deriving Repr

/-- JavaScript truthiness of a `result` payload (arrays and objects are
always truthy). -/
def payloadTruthy : ResultPayload → Bool
  | .items _ => true
  | .str s => !s.isEmpty
  | .other v => jsTruthy v

/-- JavaScript `String(p)` for a `result` payload (each object in an array
renders as `[object Object]`, elements joined by commas). -/
def payloadRender : ResultPayload → String
  | .items xs => String.intercalate "," (xs.map fun _ => "[object Object]")
  | .str s => s
  | .other v => jsStringOfJson v

/-- The coercion `String(data?.result || '')`. -/
def renderResultOrEmpty : Option ResultPayload → String
  | none => ""
  | some p => if payloadTruthy p then payloadRender p else ""

/-- Function `toV2BaseUrl` from `route.ts`: an URL already containing `/v2/` is kept;
otherwise the regex `\/api\/?$` replaces a trailing `/api` or `/api/` with
`/v2/api`; with no match the URL is unchanged. -/
def toV2BaseUrl (v1Url : String) : String :=
  if containsSub v1Url.data "/v2/".data then v1Url
  else if "/api/".data.isSuffixOf v1Url.data then
    String.mk (v1Url.data.take (v1Url.data.length - 5)) ++ "/v2/api"
  else if "/api".data.isSuffixOf v1Url.data then
    String.mk (v1Url.data.take (v1Url.data.length - 4)) ++ "/v2/api"
  else v1Url

/-- Function `isDeprecatedV1Error` from `route.ts`. -/
def isDeprecatedV1Error (data : ExplorerApiResponse) : Bool :=
  let msg := jsToLower
    (renderResultOrEmpty data.result ++ " " ++ (data.message.getD ""))
  containsSub msg.data "deprecated".data && containsSub msg.data "v1".data

/-- JS `URLSearchParams.set`: overwrite an existing key in place, otherwise
append. -/
def setParam (ps : List (String × String)) (k v : String) :
    List (String × String) :=
  if ps.any (fun p => p.1 = k) then
    ps.map (fun p => if p.1 = k then (k, v) else p)
  else ps ++ [(k, v)]

/-- The query parameters one `attempt` sends: the v2 attempt sets `chainid`
only when a non-empty chain id is available (`if (useV2 && chainId)`). -/
def attemptParams (chainId : String) (params : List (String × String))
    (useV2 : Bool) : List (String × String) :=
  if useV2 ∧ chainId ≠ "" then setParam params "chainid" chainId else params

/-- The network oracle: base URL and query parameters to the decoded JSON
response; `error` models a rejected `fetch` / `resp.json()`. -/
abbrev Net := String → List (String × String) → Except Unit ExplorerApiResponse

/-- Function `fetchExplorer` from `route.ts`: issue the v1 request; when the response
has status `"0"` and matches the deprecated-v1 heuristic, issue exactly one
retry against the v2-rewritten base URL.  Returns the final response and the
list of requests issued, in order. -/
def fetchExplorer (net : Net) (url chainId : String)
    (params : List (String × String)) :
    Except Unit ExplorerApiResponse × List (String × List (String × String)) :=
  let p₁ := attemptParams chainId params false
  match net url p₁ with
  | .error e => (.error e, [(url, p₁)])
  | .ok json₁ =>
    if json₁.status = some "0" ∧ isDeprecatedV1Error json₁ = true then
      let p₂ := attemptParams chainId params true
      (net (toV2BaseUrl url) p₂, [(url, p₁), (toV2BaseUrl url, p₂)])
    else (.ok json₁, [(url, p₁)])

/-- The default `apiKey || 'YourApiKeyToken'` (route lines 63–67). -/
def effectiveApiKey : Option String → String
  | none => "YourApiKeyToken"
  | some k => if k = "" then "YourApiKeyToken" else k

/-! ## Source normalization and the GET handler (`route.ts` lines 50–405) -/

/-- Type `ContractFile` (the `files` entries of the response bundle). -/
structure ContractFile where
  name : String
  path : String
  content : String
  deriving Repr, DecidableEq

/-- Function `extractSourceContent` from `route.ts`: a raw string, or the string
`content` field of an object, otherwise the empty string. -/
def extractSourceContent : Json → String
  | .str s => s
  | .obj fields =>
    match (fields.find? (fun p => p.1 = "content")).map Prod.snd with
    | some (Json.str c) => c
    | _ => ""
  | _ => ""

/-- Function `getResultArray` from `route.ts`. -/
def getResultArray (data : ExplorerApiResponse) : List SourceCodeResultItem :=
  match data.result with
  | some (.items xs) => xs
  | _ => []

/-- Function `getFirstSourceItem` from `route.ts` (array elements are always
objects in this embedding, so the `typeof` guard is vacuous). -/
def getFirstSourceItem (data : ExplorerApiResponse) :
    Option SourceCodeResultItem :=
  (getResultArray data).head?

/-- One file record built from a `[path, fileInfo]` entry. -/
def mkEntryFile (pre : String) (pc : String × Json) : ContractFile :=
  { name := lastSegment pc.1
    path := pre ++ pc.1
    content := extractSourceContent pc.2 }

/-- The single-file record `{ name: CN.sol, path: pre ++ CN.sol,
content: raw }` used by the non-`{` branch and the catch fallbacks. -/
def fallbackFile (pre : String) (item : SourceCodeResultItem) : ContractFile :=
  { name := item.ContractName ++ ".sol"
    path := pre ++ item.ContractName ++ ".sol"
    content := item.SourceCode }

/-- The `settings` local after `if (parsed.settings) { settings =
parsed.settings }`: recorded only when the field is present and truthy. -/
def recordedSettings : Option Json → Option Json
  | some v => if jsTruthy v then some v else none
  | none => none

/-- The `try` body of the first normalization block (route lines 139–165):
strip braces, `JSON.parse`, record a truthy `settings` field, then build
files from the `sources` map or, failing that, from the flat map.  A JS
exception (`JSON.parse` failure or member access on `null`) is `error`. -/
def filesBlockTry (sc : String) :
    Except Unit (List ContractFile × Option Json) :=
  match parseJson (interiorOf sc) with
  | none => .error ()
  | some parsed =>
    match jsGet parsed "settings" with
    | .error e => .error e
    | .ok settingsField =>
      match jsGet parsed "sources" with
      | .error e => .error e
      | .ok sourcesField =>
        match sourcesField with
        | some v =>
          if jsTruthy v then
            .ok ((jsEntries v).map (mkEntryFile ""),
              recordedSettings settingsField)
          else .ok ((jsEntries parsed).map (mkEntryFile ""),
            recordedSettings settingsField)
        | none => .ok ((jsEntries parsed).map (mkEntryFile ""),
            recordedSettings settingsField)

/-- The first normalization block (route lines 133–180): the local `files`
array and the extracted `settings`.  The `files` component is dead in the
route (the response returns `filteredFiles`), but `settings` is live. -/
def normalizeFilesBlock (item : SourceCodeResultItem) :
    List ContractFile × Option Json :=
  if startsWithLbrace item.SourceCode then
    match filesBlockTry item.SourceCode with
    | .ok r => r
    | .error _ => ([fallbackFile "" item], none)
  else ([fallbackFile "" item], none)

/-- The `try` body shared by the three `filteredFiles` blocks (route lines
219–233, 261–275, 293–307): only a truthy `sources` map contributes files;
a valid parse without one contributes nothing. -/
def sourceFilesTry (pre : String) (sc : String) :
    Except Unit (List ContractFile) :=
  match parseJson (interiorOf sc) with
  | none => .error ()
  | some parsed =>
    match jsGet parsed "sources" with
    | .error e => .error e
    | .ok (some v) =>
      if jsTruthy v then .ok ((jsEntries v).map (mkEntryFile pre))
      else .ok []
    | .ok none => .ok []

/-- One `filteredFiles` block, with role path `pre` (`"proxy/"`,
`"implementation/"`, or `""` for the non-proxy case). -/
def buildSourceFiles (pre : String) (item : SourceCodeResultItem) :
    List ContractFile :=
  if startsWithLbrace item.SourceCode then
    match sourceFilesTry pre item.SourceCode with
    | .ok fs => fs
    | .error _ => [fallbackFile pre item]
  else [fallbackFile pre item]

/-- The expression `parseInt(result.Runs) || 200` (route line 188). -/
def runsValue (runs : String) : Int :=
  match parseIntJs runs with
  | some n => if n = 0 then 200 else n
  | none => 200

/-- The synthesized default `settings` object (route lines 183–206). -/
def defaultSettings (item : SourceCodeResultItem) : Json :=
  .obj
    [("remappings", .arr []),
     ("optimizer", .obj
       [("enabled", .bool (item.OptimizationUsed = "1")),
        ("runs", .num (toString (runsValue item.Runs)))]),
     ("metadata", .obj [("bytecodeHash", .str "none")]),
     ("outputSelection", .obj
       [("*", .obj
         [("*", .arr
           [.str "evm.bytecode", .str "evm.deployedBytecode", .str "devdoc",
            .str "userdoc", .str "metadata", .str "abi"])])])]

/-- Proxy detection (route lines 208–215): the reported `Implementation`
field when it is a present, non-empty string different from the zero
address, otherwise `null`. -/
def normalizedImplementation (item : SourceCodeResultItem) : Option String :=
  let implementationRaw := item.Implementation.getD ""
  if implementationRaw ≠ "" ∧
      implementationRaw ≠ "0x0000000000000000000000000000000000000000" then
    some implementationRaw
  else none

/-- ABI extraction (route lines 333–342): parse the string result of a
status-`"1"` response, otherwise (or on parse failure) the empty array. -/
def parseAbi (d : ExplorerApiResponse) : Json :=
  if d.status = some "1" then
    match d.result with
    | some (.str s) =>
      match parseJson s with
      | some v => v
      | none => .arr []
    | _ => .arr []
  else .arr []

/-- The query parameters the route builds: `module`, `action`, `address`,
then `apikey` appended by `set`. -/
def explorerParams (action address key : String) :
    List (String × String) :=
  [("module", "contract"), ("action", action), ("address", address),
   ("apikey", key)]

/-- The response bundle of a successful resolution.  `isProxy` and
`implementationAddress` are the route's computed locals (the response
literal ends in a `// ... other return fields ...` comment). -/
structure Bundle where
  files : List ContractFile
  settings : Json
  contractName : String
  compiler : String
  optimization : Option Json
  runs : Option Json
  abi : Json
  implementationAbi : Json
  isProxy : Bool
  implementationAddress : Option String
  deriving Repr

inductive GetOutcome where
  | badRequest
  | notVerified
  | explorerFailed (status message : Option String)
  | serverError
  | success (b : Bundle)
  deriving Repr

/-- The accesses `settings.optimizer.enabled` and `settings.optimizer.runs` as evaluated
in the response literal: member access on an `undefined` or `null`
`optimizer` throws. -/
def optFields (settings : Json) : Except Unit (Option Json × Option Json) :=
  match jsGet settings "optimizer" with
  | .error e => .error e
  | .ok none => .error ()
  | .ok (some opt) =>
    match jsGet opt "enabled", jsGet opt "runs" with
    | .ok e, .ok r => .ok (e, r)
    | _, _ => .error ()

/-- Assembling the response object (route lines 363–373). -/
def finishBundle (files : List ContractFile) (settings : Json)
    (item : SourceCodeResultItem) (abi implAbi : Json) (proxyFlag : Bool)
    (implAddr : Option String) : Except Unit GetOutcome :=
  match optFields settings with
  | .error e => .error e
  | .ok (e, r) =>
    .ok (.success
      { files := files
        settings := settings
        contractName := item.ContractName
        compiler := item.CompilerVersion
        optimization := e
        runs := r
        abi := abi
        implementationAbi := implAbi
        isProxy := proxyFlag
        implementationAddress := implAddr })

/-- The implementation file set (route lines 256–290): files are added only
when the implementation `getsourcecode` response has status `"1"` and a
first result item. -/
def implFilesOf (implData : ExplorerApiResponse) : List ContractFile :=
  match (if implData.status = some "1" then getFirstSourceItem implData
      else none) with
  | some implItem => buildSourceFiles "implementation/" implItem
  | none => []

/-- The body of the route's `try` block, after chain configuration resolved
(route lines 69–397).  An `error` is a JS exception reaching the outer
`catch` (a 500). -/
def GETtry (net : Net) (url : String) (apiKey : Option String)
    (chainId : String) (address : String) : Except Unit GetOutcome :=
  match (fetchExplorer net url chainId
      (explorerParams "getsourcecode" address (effectiveApiKey apiKey))).1 with
  | .error e => .error e
  | .ok data =>
    match (if data.status = some "1" then getFirstSourceItem data else none) with
    | none => .ok (.explorerFailed data.status data.message)
    | some item =>
      if item.SourceCode = "" then .ok .notVerified
      else
        match normalizedImplementation item with
        | some implAddr =>
          match (fetchExplorer net url chainId
              (explorerParams "getsourcecode" implAddr
                (effectiveApiKey apiKey))).1 with
          | .error e => .error e
          | .ok implData =>
            match (fetchExplorer net url chainId
                (explorerParams "getabi" address (effectiveApiKey apiKey))).1 with
            | .error e => .error e
            | .ok abiData =>
              match (fetchExplorer net url chainId
                  (explorerParams "getabi" implAddr
                    (effectiveApiKey apiKey))).1 with
              | .error e => .error e
              | .ok implAbiData =>
                finishBundle
                  (buildSourceFiles "proxy/" item ++ implFilesOf implData)
                  (((normalizeFilesBlock item).2).getD (defaultSettings item))
                  item (parseAbi abiData) (parseAbi implAbiData)
                  true (some implAddr)
        | none =>
          match (fetchExplorer net url chainId
              (explorerParams "getabi" address (effectiveApiKey apiKey))).1 with
          | .error e => .error e
          | .ok abiData =>
            finishBundle (buildSourceFiles "" item)
              (((normalizeFilesBlock item).2).getD (defaultSettings item))
              item (parseAbi abiData) (.arr []) false none

/-- Chain registry interface (`getApiScanConfig`): explorer base URL and
optional API key; `none` models the lookup throwing for an unknown chain. -/
structure ScanConfig where
  url : String
  apiKey : Option String

/-- The GET handler: parameter validation, chain configuration, then the
`try` body with exceptions mapped to a 500. -/
def GET (net : Net) (scanCfg : String → Option ScanConfig)
    (chainIdOf : String → Option String)
    (addressParam chainParam : Option String) : GetOutcome :=
  match addressParam, chainParam with
  | some address, some chain =>
    if address = "" ∨ chain = "" then .badRequest
    else
      match scanCfg chain with
      | none => .serverError
      | some cfg =>
        let chainId := (chainIdOf chain).getD ""
        match GETtry net cfg.url cfg.apiKey chainId address with
        | .ok o => o
        | .error _ => .serverError
  | _, _ => .badRequest

/-! ## Neversight model registry (`neversight-models.ts`) and
analysis entry point (`ai.ts`) -/

structure NeversightModel where
  id : String
  name : String
  description : Option String
  deriving Repr, DecidableEq

def NEVERSIGHT_MODELS : List NeversightModel :=
  [{ id := "anthropic/claude-4.5-opus", name := "Claude 4.5 Opus",
     description := some "Anthropic Claude 4.5 Opus" },
   { id := "anthropic/claude-4.5-opus-max", name := "Claude 4.5 Opus Max",
     description := some "Anthropic Claude 4.5 Opus Max" },
   { id := "google/gemini-3-pro", name := "Gemini 3 Pro",
     description := some "Google Gemini 3 Pro" },
   { id := "google/gemini-3-flash", name := "Gemini 3 Flash",
     description := some "Google Gemini 3 Flash" },
   { id := "openai/gpt-5.2", name := "GPT-5.2",
     description := some "OpenAI GPT-5.2" },
   { id := "openai/gpt-5.2-high", name := "GPT-5.2 High",
     description := some "OpenAI GPT-5.2 High" }]

def getNeversightModelById (modelId : String) : Option NeversightModel :=
  NEVERSIGHT_MODELS.find? (fun m => m.id = modelId)

/-- The fixed system prompt of `ai.ts` (identified by its first line; the
claims depend only on it being the fixed system-role string). -/
def SYSTEM_PROMPT : String :=
  "You are a smart contract security auditor"

/-- The inference request `analyzeWithAI` issues: bearer key, model id, and
the two chat messages. -/
structure InferenceRequest where
  apiKey : String
  model : String
  systemContent : String
  userContent : String
  deriving Repr, DecidableEq

/-- The decoded inference response: `ok`/`status` from `fetch`, and the body
as JSON (`none` models `response.json()` rejecting). -/
structure InferenceResponse where
  ok : Bool
  status : Nat
  body : Option Json

inductive AIError where
  | configNotFound
  | badConfigJson
  | configTypeError
  | invalidModel
  | missingApiKey
  | requestFailed (status : Nat)
  | undecodableBody
  | malformedResponse
  deriving Repr, DecidableEq

/-- Optional chaining `v?.k` on an optional JSON value: `undefined` on
`null`/`undefined`/missing keys/primitives, never a throw. -/
def optChain (v : Option Json) (k : String) : Option Json :=
  match v with
  | some (.obj fields) => (fields.find? (fun p => p.1 = k)).map Prod.snd
  | _ => none

/-- Optional-chained index `v?.[0]`. -/
def optIndex0 (v : Option Json) : Option Json :=
  match v with
  | some (.arr elems) => elems.head?
  | some (.obj fields) => (fields.find? (fun p => p.1 = "0")).map Prod.snd
  | _ => none

/-- The chain `data?.choices?.[0]?.message?.content` when it is a string. -/
def extractContent (data : Json) : Option String :=
  match optChain (optIndex0 (optChain (some data) "choices")) "message"
      |> (optChain · "content") with
  | some (Json.str s) => some s
  | _ => none

/-- The call `getNeversightModelById(config.selectedModel)` where the stored field is
an arbitrary JSON value: a non-string never equals any registered id. -/
def modelFromField : Option Json → Option NeversightModel
  | some (Json.str m) => getNeversightModelById m
  | _ => none

/-- The inference request built at `ai.ts` lines 103–121. -/
def mkReq (apiKey modelId prompt : String) : InferenceRequest :=
  { apiKey := apiKey, model := modelId,
    systemContent := SYSTEM_PROMPT, userContent := prompt }

/-- Handling of the inference response (`ai.ts` lines 123–135): non-`ok`
responses fail with the HTTP status; a decoded body without a non-empty
string completion at `choices[0].message.content` is a malformed-response
error; only a non-empty string completion is returned. -/
def requestOutcome (resp : InferenceResponse) : Except AIError String :=
  if resp.ok = false then .error (.requestFailed resp.status)
  else
    match resp.body with
    | none => .error .undecodableBody
    | some data =>
      match extractContent data with
      | some c =>
        if c = "" then .error .malformedResponse else .ok c
      | none => .error .malformedResponse

/-- Function `analyzeWithAI` from `ai.ts`.  `saved` is
`localStorage.getItem("ai_config")`; `net` is the inference endpoint.
Returns the outcome together with the list of inference requests issued
(empty on every precondition failure). -/
def analyzeWithAI (saved : Option String)
    (net : InferenceRequest → InferenceResponse) (prompt : String) :
    Except AIError String × List InferenceRequest :=
  match saved with
  | none => (.error .configNotFound, [])
  | some s =>
    match parseJson s with
    | none => (.error .badConfigJson, [])
    | some cfg =>
      match jsGet cfg "selectedModel" with
      | .error _ => (.error .configTypeError, [])
      | .ok selectedModelField =>
        match modelFromField selectedModelField with
        | none => (.error .invalidModel, [])
        | some model =>
          match jsGet cfg "apiKey" with
          | .error _ => (.error .configTypeError, [])
          | .ok apiKeyField =>
            match apiKeyField with
            | some (Json.str k) =>
              if jsTrim k = "" then (.error .missingApiKey, [])
              else
                let req := mkReq (jsTrim k) model.id prompt
                (requestOutcome (net req), [req])
            | some Json.null => (.error .missingApiKey, [])
            | some _ => (.error .configTypeError, [])
            | none => (.error .missingApiKey, [])

/-! ## Helper lemmas -/

theorem mk_append_data (l : List Char) (s : String) :
    (String.mk l ++ s).data = l ++ s.data := rfl

theorem empty_string_append (s : String) : "" ++ s = s := rfl

theorem containsSub_append (a b n : List Char) (h : containsSub b n = true) :
    containsSub (a ++ b) n = true := by
  induction a with
  | nil => simpa using h
  | cons c a ih => simp [containsSub, ih]

theorem mem_setParam (ps : List (String × String)) (k v : String) :
    (k, v) ∈ setParam ps k v := by
  unfold setParam
  split
  case isTrue h =>
    rw [List.any_eq_true] at h
    obtain ⟨p, hp, hk⟩ := h
    have hm := List.mem_map_of_mem (fun p => if p.1 = k then (k, v) else p) hp
    simpa [of_decide_eq_true hk] using hm
  case isFalse _ => exact List.mem_append_right _ (by simp)

/-! ## C10 — `toV2BaseUrl` is idempotent -/

/-- C10: `toV2BaseUrl` is idempotent; a URL containing `/v2/` is returned
unchanged, and a URL whose tail matches neither `/api` nor `/api/` is
returned unchanged, so the v2 upgrade never stacks path segments. -/
theorem C10_toV2BaseUrl_idempotent (u : String) :
    toV2BaseUrl (toV2BaseUrl u) = toV2BaseUrl u ∧
    (containsSub u.data "/v2/".data = true → toV2BaseUrl u = u) ∧
    ("/api/".data.isSuffixOf u.data = false →
      "/api".data.isSuffixOf u.data = false → toV2BaseUrl u = u) := by
  have hv2 : ∀ l : List Char,
      containsSub (l ++ "/v2/api".data) "/v2/".data = true :=
    fun l => containsSub_append l _ _ (by decide)
  have hunch : ∀ hv : ¬ containsSub u.data "/v2/".data = true,
      "/api/".data.isSuffixOf u.data = false →
      "/api".data.isSuffixOf u.data = false → toV2BaseUrl u = u := by
    intro hv h1 h2
    simp [toV2BaseUrl, hv, h1, h2]
  refine ⟨?_, fun h => by simp [toV2BaseUrl, h], fun h1 h2 => ?_⟩
  · by_cases hv : containsSub u.data "/v2/".data = true
    · simp [toV2BaseUrl, hv]
    · by_cases h5 : "/api/".data.isSuffixOf u.data = true
      · have hstep : toV2BaseUrl u =
            String.mk (u.data.take (u.data.length - 5)) ++ "/v2/api" := by
          simp [toV2BaseUrl, hv, h5]
        rw [hstep]
        simp [toV2BaseUrl, mk_append_data, hv2]
      · by_cases h4 : "/api".data.isSuffixOf u.data = true
        · have hstep : toV2BaseUrl u =
              String.mk (u.data.take (u.data.length - 4)) ++ "/v2/api" := by
            simp [toV2BaseUrl, hv, h5, h4]
          rw [hstep]
          simp [toV2BaseUrl, mk_append_data, hv2]
        · have hu : toV2BaseUrl u = u :=
            hunch hv (Bool.not_eq_true _ ▸ eq_false_of_ne_true h5)
              (Bool.not_eq_true _ ▸ eq_false_of_ne_true h4)
          rw [hu, hu]
  · by_cases hv : containsSub u.data "/v2/".data = true
    · simp [toV2BaseUrl, hv]
    · exact hunch hv h1 h2

/-- Witness for C10 at a concrete URL ending in `/api`. -/
theorem C10_witness :
    toV2BaseUrl (toV2BaseUrl "https://api.etherscan.io/api") =
      toV2BaseUrl "https://api.etherscan.io/api" ∧
    toV2BaseUrl "https://api.etherscan.io/v2/api" =
      "https://api.etherscan.io/v2/api" ∧
    toV2BaseUrl "https://api.etherscan.io" = "https://api.etherscan.io" := by
  obtain ⟨h1, _, _⟩ := C10_toV2BaseUrl_idempotent "https://api.etherscan.io/api"
  obtain ⟨_, h2, _⟩ := C10_toV2BaseUrl_idempotent "https://api.etherscan.io/v2/api"
  obtain ⟨_, _, h3⟩ := C10_toV2BaseUrl_idempotent "https://api.etherscan.io"
  exact ⟨h1, h2 (by decide), h3 (by decide) (by decide)⟩

/-! ## C4 — proxy status from the reported `Implementation` field -/

/-- C4: `isProxy` (derived from `normalizedImplementation`) is true iff the
explorer-reported `Implementation` field is a present, non-empty string
different from the zero address; in that case the implementation address is
exactly the reported value, and in every successful bundle the proxy flag
agrees with the nullability of the implementation address. -/
theorem C4_proxy_detection (item : SourceCodeResultItem) :
    ((normalizedImplementation item).isSome = true ↔
      ∃ s, item.Implementation = some s ∧ s ≠ "" ∧
        s ≠ "0x0000000000000000000000000000000000000000") ∧
    (∀ s, item.Implementation = some s → s ≠ "" →
      s ≠ "0x0000000000000000000000000000000000000000" →
      normalizedImplementation item = some s) ∧
    ((¬ ∃ s, item.Implementation = some s ∧ s ≠ "" ∧
        s ≠ "0x0000000000000000000000000000000000000000") →
      normalizedImplementation item = none) := by
  unfold normalizedImplementation
  rcases item.Implementation with _ | s
  · simp
  · by_cases h1 : s = ""
    · simp [h1]
    · by_cases h2 : s = "0x0000000000000000000000000000000000000000"
      · simp [h1, h2]
      · simp [h1, h2]

/-- Witness for C4 at a concrete proxy item. -/
theorem C4_witness :
    normalizedImplementation
      { SourceCode := "contract P", ContractName := "P",
        CompilerVersion := "v0.8.0", OptimizationUsed := "1", Runs := "200",
        Implementation := some "0xBBB" } = some "0xBBB" ∧
    (normalizedImplementation
      { SourceCode := "contract P", ContractName := "P",
        CompilerVersion := "v0.8.0", OptimizationUsed := "1", Runs := "200",
        Implementation :=
          some "0x0000000000000000000000000000000000000000" }).isSome = false := by
  constructor
  · exact (C4_proxy_detection _).2.1 "0xBBB" rfl (by decide) (by decide)
  · have h := ((C4_proxy_detection
      { SourceCode := "contract P", ContractName := "P",
        CompilerVersion := "v0.8.0", OptimizationUsed := "1", Runs := "200",
        Implementation :=
          some "0x0000000000000000000000000000000000000000" }).2.2 (by
            rintro ⟨s, hs, _, hz⟩
            cases hs
            exact hz rfl))
    simp [h]

/-! ## C7 — fallback on unparseable brace-wrapped source -/

/-- C7: when the raw `SourceCode` begins with `{` but its brace-stripped
interior fails to parse as JSON, normalization does not raise: both the
response-side block and the first normalization block return exactly one
file named `<ContractName>.sol` whose content is the raw `SourceCode`
verbatim. -/
theorem C7_malformed_fallback (item : SourceCodeResultItem)
    (h1 : startsWithLbrace item.SourceCode = true)
    (h2 : parseJson (interiorOf item.SourceCode) = none) :
    buildSourceFiles "" item =
      [{ name := item.ContractName ++ ".sol",
         path := item.ContractName ++ ".sol",
         content := item.SourceCode }] ∧
    (normalizeFilesBlock item).1 =
      [{ name := item.ContractName ++ ".sol",
         path := item.ContractName ++ ".sol",
         content := item.SourceCode }] := by
  constructor
  · simp [buildSourceFiles, sourceFilesTry, h1, h2, fallbackFile,
      empty_string_append]
  · simp [normalizeFilesBlock, filesBlockTry, h1, h2, fallbackFile,
      empty_string_append]

def itemMalformed : SourceCodeResultItem :=
  { SourceCode := "\x7babc\x7d", ContractName := "Foo",
    CompilerVersion := "v0.8.0", OptimizationUsed := "0", Runs := "",
    Implementation := none }

/-- Witness for C7 at a concrete unparseable payload. -/
theorem C7_witness :
    buildSourceFiles "" itemMalformed =
      [{ name := "Foo.sol", path := "Foo.sol", content := "\x7babc\x7d" }] := by
  have h := C7_malformed_fallback itemMalformed rfl rfl
  exact h.1

/-! ## C2 — at most one v2 retry, `chainid` on the retry -/

/-- C2 (amended): when the v1 response has status `"0"` and matches the
deprecated-v1 heuristic, `fetchExplorer` issues exactly one further request,
against the v2-rewritten base URL; the retry carries `chainid` exactly when
the resolved chain id is non-empty.  Any other first response results in
exactly one request in total. -/
theorem C2_upgrade_requests (net : Net) (url chainId : String)
    (params : List (String × String)) (r1 : ExplorerApiResponse)
    (h1 : net url params = .ok r1) :
    (r1.status = some "0" ∧ isDeprecatedV1Error r1 = true →
      (fetchExplorer net url chainId params).2 =
        [(url, params), (toV2BaseUrl url, attemptParams chainId params true)] ∧
      (chainId ≠ "" →
        ("chainid", chainId) ∈ attemptParams chainId params true) ∧
      (chainId = "" → attemptParams chainId params true = params)) ∧
    (¬ (r1.status = some "0" ∧ isDeprecatedV1Error r1 = true) →
      (fetchExplorer net url chainId params).2 = [(url, params)]) := by
  have hp1 : attemptParams chainId params false = params := by
    simp [attemptParams]
  constructor
  · intro hdep
    refine ⟨?_, fun hc => ?_, fun hc => ?_⟩
    · simp [fetchExplorer, hp1, h1, hdep]
    · simp only [attemptParams, if_pos (And.intro trivial hc)]
      exact mem_setParam params "chainid" chainId
    · simp [attemptParams, hc]
  · intro hdep
    simp [fetchExplorer, hp1, h1, hdep]

def depResp : ExplorerApiResponse :=
  { status := some "0", message := some "NOTOK",
    result := some (.str "deprecated V1 endpoint, use V2") }

def netDep : Net := fun _ _ => .ok depResp

/-- Counterexample to C2 as stated: with an empty resolved chain id the v2
retry is issued but carries no `chainid` parameter at all. -/
theorem C2_counterexample :
    (fetchExplorer netDep "https://e/api" "" [("module", "contract")]).2 =
      [("https://e/api", [("module", "contract")]),
       ("https://e/v2/api", [("module", "contract")])] ∧
    ((fetchExplorer netDep "https://e/api" "" [("module", "contract")]).2.all
      (fun rq => rq.2.all (fun p => p.1 ≠ "chainid"))) = true := by
  exact ⟨rfl, rfl⟩

def okStrResp : ExplorerApiResponse :=
  { status := some "1", message := some "OK", result := some (.str "[]") }

def netOkStr : Net := fun _ _ => .ok okStrResp

/-- Witness for C2 with a non-empty chain id: both request-count behaviours,
and `chainid` present on the retry. -/
theorem C2_witness :
    (fetchExplorer netDep "https://e/api" "1" [("module", "contract")]).2 =
      [("https://e/api", [("module", "contract")]),
       ("https://e/v2/api", attemptParams "1" [("module", "contract")] true)] ∧
    ("chainid", "1") ∈ attemptParams "1" [("module", "contract")] true ∧
    (fetchExplorer netOkStr "https://e/api" "1"
      [("module", "contract")]).2 = [("https://e/api", [("module", "contract")])] := by
  have h := C2_upgrade_requests netDep "https://e/api" "1"
    [("module", "contract")] depResp rfl
  have hok := C2_upgrade_requests netOkStr "https://e/api" "1"
    [("module", "contract")] okStrResp rfl
  refine ⟨(h.1 ⟨rfl, rfl⟩).1,
    (h.1 ⟨rfl, rfl⟩).2.1 (by decide), hok.2 ?_⟩
  rintro ⟨hs, _⟩
  rw [show okStrResp.status = some "1" from rfl] at hs
  simp at hs

/-! ## C8 / C9 — analysis precondition and response-shape handling -/

/-- Case analysis of `analyzeWithAI`: either a precondition fails and no
request is issued, or exactly one request is issued, built from the stored
trimmed key and the registered model, and the outcome is `requestOutcome`
of the response. -/
theorem analyzeWithAI_shape (saved : Option String)
    (net : InferenceRequest → InferenceResponse) (prompt : String) :
    (∃ e, analyzeWithAI saved net prompt = (.error e, [])) ∨
    (∃ s cfg m mdl k, saved = some s ∧ parseJson s = some cfg ∧
      jsGet cfg "selectedModel" = .ok (some (.str m)) ∧
      getNeversightModelById m = some mdl ∧
      jsGet cfg "apiKey" = .ok (some (.str k)) ∧ jsTrim k ≠ "" ∧
      analyzeWithAI saved net prompt =
        (requestOutcome (net (mkReq (jsTrim k) mdl.id prompt)),
         [mkReq (jsTrim k) mdl.id prompt])) := by
  rcases saved with _ | s
  · exact Or.inl ⟨.configNotFound, rfl⟩
  rcases hp : parseJson s with _ | cfg
  · exact Or.inl ⟨.badConfigJson, by simp [analyzeWithAI, hp]⟩
  rcases hm : jsGet cfg "selectedModel" with e | mf
  · exact Or.inl ⟨.configTypeError, by simp [analyzeWithAI, hp, hm]⟩
  rcases hmodel : modelFromField mf with _ | mdl
  · exact Or.inl ⟨.invalidModel, by simp [analyzeWithAI, hp, hm, hmodel]⟩
  have hmf : ∃ m, mf = some (.str m) ∧ getNeversightModelById m = some mdl := by
    rcases mf with _ | j
    · simp [modelFromField] at hmodel
    · cases j
      case str m => exact ⟨m, rfl, by simpa [modelFromField] using hmodel⟩
      all_goals simp [modelFromField] at hmodel
  obtain ⟨m, hmfeq, hlook⟩ := hmf
  rcases hk : jsGet cfg "apiKey" with e | kf
  · exact Or.inl ⟨.configTypeError, by simp [analyzeWithAI, hp, hm, hmodel, hk]⟩
  rcases kf with _ | j
  · exact Or.inl ⟨.missingApiKey, by simp [analyzeWithAI, hp, hm, hmodel, hk]⟩
  cases j
  case str k =>
    by_cases ht : jsTrim k = ""
    · exact Or.inl ⟨.missingApiKey, by simp [analyzeWithAI, hp, hm, hmodel, hk, ht]⟩
    · refine Or.inr ⟨s, cfg, m, mdl, k, rfl, hp, ?_, hlook, ?_, ht, ?_⟩
      · rw [hm, hmfeq]
      · exact hk
      · simp [analyzeWithAI, hp, hm, hmodel, hk, ht]
  case null => exact Or.inl ⟨.missingApiKey,
    by simp [analyzeWithAI, hp, hm, hmodel, hk]⟩
  all_goals exact Or.inl ⟨.configTypeError,
    by simp [analyzeWithAI, hp, hm, hmodel, hk]⟩

/-- C8: `analyzeWithAI` fails without issuing any inference request when the
stored configuration is absent, when its `selectedModel` is not a registered
Neversight model id, or when its `apiKey` is absent or trims to the empty
string; any issued request carries exactly the stored trimmed key (never a
default), whereas explorer requests default a missing or empty key to the
public placeholder token. -/
theorem C8_precondition_failures (saved : Option String)
    (net : InferenceRequest → InferenceResponse) (prompt : String) :
    (saved = none → analyzeWithAI saved net prompt = (.error .configNotFound, [])) ∧
    (∀ req, req ∈ (analyzeWithAI saved net prompt).2 →
      ∃ s cfg m mdl k, saved = some s ∧ parseJson s = some cfg ∧
        jsGet cfg "selectedModel" = .ok (some (.str m)) ∧
        getNeversightModelById m = some mdl ∧
        jsGet cfg "apiKey" = .ok (some (.str k)) ∧ jsTrim k ≠ "" ∧
        req = mkReq (jsTrim k) mdl.id prompt) ∧
    ((analyzeWithAI saved net prompt).2 = [] →
      ∃ e, (analyzeWithAI saved net prompt).1 = .error e) ∧
    effectiveApiKey none = "YourApiKeyToken" ∧
    effectiveApiKey (some "") = "YourApiKeyToken" := by
  refine ⟨fun h => by subst h; rfl, ?_, ?_, rfl, rfl⟩
  · intro req hreq
    rcases analyzeWithAI_shape saved net prompt with ⟨e, hA⟩ |
      ⟨s, cfg, m, mdl, k, hs, hp, hm, hlook, hk, ht, hA⟩
    · rw [hA] at hreq; simp at hreq
    · rw [hA] at hreq
      simp only [List.mem_singleton] at hreq
      exact ⟨s, cfg, m, mdl, k, hs, hp, hm, hlook, hk, ht, hreq⟩
  · intro hempty
    rcases analyzeWithAI_shape saved net prompt with ⟨e, hA⟩ |
      ⟨_, _, _, _, _, _, _, _, _, _, _, hA⟩
    · exact ⟨e, by rw [hA]⟩
    · rw [hA] at hempty; simp at hempty

def validConfigJson : String :=
  "\x7b\"apiKey\":\" sk-test \",\"selectedModel\":\"openai/gpt-5.2\",\"language\":\"english\",\"superPrompt\":true\x7d"

def respOkBody : InferenceResponse :=
  { ok := true, status := 200,
    body := some (.obj [("choices", .arr
      [.obj [("message", .obj [("content", .str "# Audit Report")])]])]) }

/-- Witness for C8: the three failure modes at concrete inputs, and the one
request issued under a valid configuration carries the trimmed stored key. -/
theorem C8_witness :
    analyzeWithAI none (fun _ => respOkBody) "p" = (.error .configNotFound, []) ∧
    (analyzeWithAI (some "\x7b\"apiKey\":\"k\",\"selectedModel\":\"bad/model\"\x7d")
      (fun _ => respOkBody) "p").2 = [] ∧
    (analyzeWithAI (some "\x7b\"selectedModel\":\"openai/gpt-5.2\"\x7d")
      (fun _ => respOkBody) "p").2 = [] ∧
    (∀ req, req ∈ (analyzeWithAI (some validConfigJson)
        (fun _ => respOkBody) "p").2 → req.apiKey = "sk-test") := by
  refine ⟨(C8_precondition_failures none (fun _ => respOkBody) "p").1 rfl,
    rfl, rfl, ?_⟩
  intro req hreq
  obtain ⟨s, cfg, m, mdl, k, hs, hp, _, hlook, hk, _, hreq'⟩ :=
    (C8_precondition_failures (some validConfigJson)
      (fun _ => respOkBody) "p").2.1 req hreq
  cases hs
  rw [show parseJson validConfigJson = some (.obj
    [("apiKey", .str " sk-test "), ("selectedModel", .str "openai/gpt-5.2"),
     ("language", .str "english"), ("superPrompt", .bool true)]) from rfl] at hp
  cases hp
  rw [show jsGet (Json.obj
    [("apiKey", .str " sk-test "), ("selectedModel", .str "openai/gpt-5.2"),
     ("language", .str "english"), ("superPrompt", .bool true)]) "apiKey" =
      .ok (some (.str " sk-test ")) from rfl] at hk
  cases hk
  rw [hreq']
  rfl

/-- C9: `analyzeWithAI` returns successfully only with a non-empty string
completion extracted from the decoded body at
`choices[0].message.content`; a decoded body lacking such a completion, or
carrying the empty string, yields the distinct malformed-response error. -/
theorem C9_completion_shape (saved : Option String)
    (net : InferenceRequest → InferenceResponse) (prompt : String) :
    (∀ s, (analyzeWithAI saved net prompt).1 = .ok s → s ≠ "" ∧
      ∃ req data, (analyzeWithAI saved net prompt).2 = [req] ∧
        (net req).body = some data ∧ extractContent data = some s) ∧
    (∀ req, (analyzeWithAI saved net prompt).2 = [req] →
      (net req).ok = true → ∀ data, (net req).body = some data →
      (extractContent data = none ∨ extractContent data = some "") →
      (analyzeWithAI saved net prompt).1 = .error .malformedResponse) := by
  have hro : ∀ resp s, requestOutcome resp = .ok s → s ≠ "" ∧
      ∃ data, resp.body = some data ∧ extractContent data = some s := by
    rintro ⟨ok, status, body⟩ s h
    cases ok
    · simp [requestOutcome] at h
    · rcases body with _ | data
      · simp [requestOutcome] at h
      · rcases hx : extractContent data with _ | c
        · simp [requestOutcome, hx] at h
        · by_cases hc : c = ""
          · simp [requestOutcome, hx, hc] at h
          · simp only [requestOutcome, hx, if_neg hc] at h
            simp only [Bool.true_eq_false, if_false, Except.ok.injEq] at h
            subst h
            exact ⟨hc, data, rfl, hx⟩
  have hrm : ∀ resp, resp.ok = true → ∀ data, resp.body = some data →
      (extractContent data = none ∨ extractContent data = some "") →
      requestOutcome resp = .error .malformedResponse := by
    rintro ⟨ok, status, body⟩ hok data hb hx
    cases hok
    cases hb
    rcases hx with hx | hx
    · simp [requestOutcome, hx]
    · simp [requestOutcome, hx]
  constructor
  · intro s hs
    rcases analyzeWithAI_shape saved net prompt with ⟨e, hA⟩ |
      ⟨_, _, _, _, _, _, _, _, _, _, _, hA⟩
    · rw [hA] at hs; simp at hs
    · rw [hA] at hs
      simp only at hs
      obtain ⟨hne, data, hb, hx⟩ := hro _ _ hs
      exact ⟨hne, _, data, by rw [hA], hb, hx⟩
  · intro req hreq hok data hb hx
    rcases analyzeWithAI_shape saved net prompt with ⟨e, hA⟩ |
      ⟨_, _, _, _, _, _, _, _, _, _, _, hA⟩
    · rw [hA] at hreq; simp at hreq
    · rw [hA] at hreq
      simp only [List.cons.injEq, and_true] at hreq
      rw [hA]
      simp only
      rw [hreq]
      exact hrm _ hok data hb hx

def respEmptyContent : InferenceResponse :=
  { ok := true, status := 200,
    body := some (.obj [("choices", .arr
      [.obj [("message", .obj [("content", .str "")])]])]) }

/-- Witness for C9: a response with an empty completion yields the
malformed-response error, and the successful response yields its non-empty
completion. -/
theorem C9_witness :
    (analyzeWithAI (some validConfigJson)
      (fun _ => respEmptyContent) "p").1 = .error .malformedResponse ∧
    (analyzeWithAI (some validConfigJson)
      (fun _ => respOkBody) "p").1 = .ok "# Audit Report" := by
  constructor
  · exact (C9_completion_shape (some validConfigJson)
      (fun _ => respEmptyContent) "p").2 _ rfl rfl _ rfl (Or.inr rfl)
  · rfl

/-! ## Inversion lemmas for the GET handler -/

theorem recordedSettings_truthy (f : Option Json) (v : Json)
    (h : recordedSettings f = some v) : jsTruthy v = true := by
  rcases f with _ | w
  · simp [recordedSettings] at h
  · by_cases hw : jsTruthy w = true
    · simp only [recordedSettings, if_pos hw] at h
      cases h
      exact hw
    · simp only [recordedSettings, if_neg hw] at h
      simp at h

/-- A successful first normalization block records `recordedSettings` of the
parsed payload's `settings` field. -/
theorem filesBlockTry_settings (sc : String)
    (r : List ContractFile × Option Json) (h : filesBlockTry sc = .ok r) :
    ∃ parsed settingsField, parseJson (interiorOf sc) = some parsed ∧
      jsGet parsed "settings" = .ok settingsField ∧
      r.2 = recordedSettings settingsField := by
  unfold filesBlockTry at h
  split at h
  · simp at h
  · rename_i parsed hparse
    split at h
    · simp at h
    · rename_i settingsField hsf
      split at h
      · simp at h
      · rename_i sourcesField hsrc
        split at h
        · split at h <;> (cases h; exact ⟨parsed, settingsField, hparse, hsf, rfl⟩)
        · cases h; exact ⟨parsed, settingsField, hparse, hsf, rfl⟩

/-- A `settings` value recorded by the first normalization block is always a
truthy JSON value (only truthy `parsed.settings` values are assigned). -/
theorem normalizeFilesBlock_settings_truthy (item : SourceCodeResultItem)
    (v : Json) (h : (normalizeFilesBlock item).2 = some v) :
    jsTruthy v = true := by
  unfold normalizeFilesBlock at h
  split at h
  · rcases hT : filesBlockTry item.SourceCode with e | r
    · rw [hT] at h; simp at h
    · rw [hT] at h
      obtain ⟨parsed, settingsField, _, _, hset⟩ :=
        filesBlockTry_settings item.SourceCode r hT
      rw [hset] at h
      exact recordedSettings_truthy settingsField v h
  · simp at h

/-- Inverting a successful `finishBundle`. -/
theorem finishBundle_inv {files : List ContractFile} {settings : Json}
    {item : SourceCodeResultItem} {abi implAbi : Json} {proxyFlag : Bool}
    {implAddr : Option String} {b : Bundle}
    (h : finishBundle files settings item abi implAbi proxyFlag implAddr =
      .ok (.success b)) :
    b.files = files ∧ b.settings = settings ∧
    b.contractName = item.ContractName ∧
    b.compiler = item.CompilerVersion ∧ b.abi = abi ∧
    b.implementationAbi = implAbi ∧ b.isProxy = proxyFlag ∧
    b.implementationAddress = implAddr := by
  unfold finishBundle at h
  split at h
  · simp at h
  · rename_i er heq
    simp only [Except.ok.injEq, GetOutcome.success.injEq] at h
    subst h
    exact ⟨rfl, rfl, rfl, rfl, rfl, rfl, rfl, rfl⟩

/-- Inverting a successful run of the route's `try` body: the bundle's
settings, proxy flag, implementation address, contract name and file list
are the ones computed from the first `getsourcecode` item. -/
theorem GETtry_success_inv (net : Net) (url : String) (apiKey : Option String)
    (chainId address : String) (b : Bundle)
    (h : GETtry net url apiKey chainId address = .ok (.success b)) :
    ∃ data item,
      (fetchExplorer net url chainId
        (explorerParams "getsourcecode" address (effectiveApiKey apiKey))).1 =
          .ok data ∧
      data.status = some "1" ∧ getFirstSourceItem data = some item ∧
      item.SourceCode ≠ "" ∧
      b.settings = ((normalizeFilesBlock item).2).getD (defaultSettings item) ∧
      b.contractName = item.ContractName ∧
      b.isProxy = (normalizedImplementation item).isSome ∧
      b.implementationAddress = normalizedImplementation item ∧
      (normalizedImplementation item = none →
        b.files = buildSourceFiles "" item) ∧
      (∀ ia, normalizedImplementation item = some ia →
        ∃ extra, b.files = buildSourceFiles "proxy/" item ++ extra) := by
  unfold GETtry at h
  split at h
  · simp at h
  · rename_i data hdata
    split at h
    · simp at h
    · rename_i item hitem
      have hstatus : data.status = some "1" ∧ getFirstSourceItem data = some item := by
        by_cases hs : data.status = some "1"
        · rw [if_pos hs] at hitem; exact ⟨hs, hitem⟩
        · rw [if_neg hs] at hitem; simp at hitem
      split at h
      · simp at h
      · rename_i hne
        split at h
        · rename_i implAddr himpl
          split at h
          · simp at h
          · rename_i implData himplData
            split at h
            · simp at h
            · rename_i abiData habiData
              split at h
              · simp at h
              · rename_i implAbiData himplAbiData
                obtain ⟨hf, hs, hcn, _, _, _, hip, hia⟩ := finishBundle_inv h
                refine ⟨data, item, hdata, hstatus.1, hstatus.2, hne, hs, hcn,
                  ?_, ?_, ?_, ?_⟩
                · rw [hip, himpl]; rfl
                · rw [hia, himpl]
                · intro hcontra; rw [hcontra] at himpl; cases himpl
                · intro ia hia'
                  exact ⟨_, hf⟩
        · rename_i himpl
          split at h
          · simp at h
          · rename_i abiData habiData
            obtain ⟨hf, hs, hcn, _, _, _, hip, hia⟩ := finishBundle_inv h
            refine ⟨data, item, hdata, hstatus.1, hstatus.2, hne, hs, hcn,
              ?_, ?_, fun _ => hf, ?_⟩
            · rw [hip, himpl]; rfl
            · rw [hia, himpl]
            · intro ia hia'
              rw [hia'] at himpl; cases himpl

/-! ## Outcome accessors and shared concrete fixtures -/

def outcomeFiles : GetOutcome → Option (List ContractFile)
  | .success b => some b.files
  | _ => none

def outcomeSettings : GetOutcome → Option Json
  | .success b => some b.settings
  | _ => none

def outcomeIsProxy : GetOutcome → Option Bool
  | .success b => some b.isProxy
  | _ => none

def outcomeImplAddr : GetOutcome → Option (Option String)
  | .success b => some b.implementationAddress
  | _ => none

def scanCfgTest : String → Option ScanConfig :=
  fun _ => some { url := "https://e/api", apiKey := some "k" }

def chainIdTest : String → Option String := fun _ => some "1"

def okResp (xs : List SourceCodeResultItem) : ExplorerApiResponse :=
  { status := some "1", message := some "OK", result := some (.items xs) }

def abiResp : ExplorerApiResponse :=
  { status := some "1", message := some "OK", result := some (.str "[]") }

/-- A network oracle answering `getabi` with `abiResp`, requests for
`implAddr` with `implAnswer`, and everything else with `primary`. -/
def mkNet (primary : ExplorerApiResponse)
    (implAnswer : Except Unit ExplorerApiResponse) (implAddr : String) : Net :=
  fun _ ps =>
    if ps.any (fun p => p.1 = "action" ∧ p.2 = "getabi") then .ok abiResp
    else if ps.any (fun p => p.1 = "address" ∧ p.2 = implAddr) then implAnswer
    else .ok primary

/-! ## C3 — the flat-map shape is dropped from the response bundle -/

def itemFlat : SourceCodeResultItem :=
  { SourceCode := "\x7b\x7b\"A.sol\":\"contract A\"\x7d\x7d"
    ContractName := "A", CompilerVersion := "v0.8.0"
    OptimizationUsed := "1", Runs := "200", Implementation := some "" }

def netFlat : Net := mkNet (okResp [itemFlat]) (.error ()) ""

/-- C3: the claim is right and the code has a slip.  For a verified
non-proxy contract whose packed `SourceCode` is a flat path→content map
(valid JSON, no `sources` key), the first normalization block produces one
file per entry — but that block's file list is dead (`files` is never
returned); the response's `filteredFiles` block has no flat-map branch, so
the returned bundle has an empty file list. -/
theorem C3_flatmap_dropped :
    parseJson (interiorOf itemFlat.SourceCode) =
      some (.obj [("A.sol", .str "contract A")]) ∧
    (normalizeFilesBlock itemFlat).1 =
      [{ name := "A.sol", path := "A.sol", content := "contract A" }] ∧
    outcomeFiles (GET netFlat scanCfgTest chainIdTest
      (some "0xA") (some "eth")) = some [] := by
  exact ⟨rfl, rfl, rfl⟩

/-! ## C5 — non-proxy bundles and path prefixes -/

/-- The keys of the payload's truthy `sources` map (empty for every other
payload shape). -/
def sourcesKeys (sc : String) : List String :=
  match parseJson (interiorOf sc) with
  | none => []
  | some parsed =>
    match jsGet parsed "sources" with
    | .ok (some v) => if jsTruthy v then (jsEntries v).map Prod.fst else []
    | _ => []

/-- Every file of the non-proxy `filteredFiles` block has as its path either
a payload `sources` key, verbatim, or `<ContractName>.sol`: the resolver
itself prepends no prefix. -/
theorem buildSourceFiles_plain_paths (item : SourceCodeResultItem)
    (f : ContractFile) (hf : f ∈ buildSourceFiles "" item) :
    f.path ∈ sourcesKeys item.SourceCode ∨
    f.path = item.ContractName ++ ".sol" := by
  unfold buildSourceFiles at hf
  split at hf
  · rcases hT : sourceFilesTry "" item.SourceCode with e | fs
    · rw [hT] at hf
      simp only [List.mem_singleton] at hf
      right
      rw [hf]
      simp [fallbackFile, empty_string_append]
    · rw [hT] at hf
      unfold sourceFilesTry at hT
      split at hT
      · simp at hT
      · rename_i parsed hparse
        split at hT
        · simp at hT
        · rename_i v hsrc
          split at hT
          · rename_i htr
            cases hT
            obtain ⟨pc, hpc, hfe⟩ := List.mem_map.mp hf
            left
            rw [← hfe]
            simp only [sourcesKeys, hparse, hsrc, if_pos htr]
            exact List.mem_map.mpr ⟨pc, hpc,
              by simp [mkEntryFile, empty_string_append]⟩
          · cases hT
            simp at hf
        · cases hT
          simp at hf
  · simp only [List.mem_singleton] at hf
    right
    rw [hf]
    simp [fallbackFile, empty_string_append]

/-- C5 (amended): in every non-proxy bundle, every file path is either one
of the payload's own `sources` keys verbatim or `<ContractName>.sol` — the
resolver adds no `proxy/` or `implementation/` prefix of its own, but a
payload key that itself begins with such a prefix appears unchanged. -/
theorem C5_no_resolver_prefix (net : Net) (url : String)
    (apiKey : Option String) (chainId address : String) (b : Bundle)
    (data : ExplorerApiResponse) (item : SourceCodeResultItem)
    (h : GETtry net url apiKey chainId address = .ok (.success b))
    (hb : b.isProxy = false)
    (hdata : (fetchExplorer net url chainId
      (explorerParams "getsourcecode" address (effectiveApiKey apiKey))).1 =
        .ok data)
    (hitem : getFirstSourceItem data = some item) :
    ∀ f ∈ b.files, f.path ∈ sourcesKeys item.SourceCode ∨
      f.path = item.ContractName ++ ".sol" := by
  obtain ⟨data', item', hdata', _, hitem', _, _, _, hip, _, hnone, _⟩ :=
    GETtry_success_inv net url apiKey chainId address b h
  rw [hdata] at hdata'
  cases hdata'
  rw [hitem] at hitem'
  cases hitem'
  have hni : normalizedImplementation item = none := by
    rcases hcase : normalizedImplementation item with _ | x
    · rfl
    · rw [hb, hcase] at hip
      simp at hip
  have hfiles := hnone hni
  intro f hf
  exact buildSourceFiles_plain_paths item f (hfiles ▸ hf)

def itemLeak : SourceCodeResultItem :=
  { SourceCode := "\x7b\x7b\"sources\":\x7b\"proxy/A.sol\":\"x\"\x7d\x7d\x7d"
    ContractName := "A", CompilerVersion := "v0.8.0"
    OptimizationUsed := "0", Runs := "0", Implementation := none }

def netLeak : Net := mkNet (okResp [itemLeak]) (.error ()) ""

/-- Counterexample to C5 as stated: a non-proxy bundle whose payload's own
`sources` key begins with `proxy/` keeps that path verbatim, so an
`isProxy = false` bundle does contain a `proxy/`-prefixed path. -/
theorem C5_counterexample :
    outcomeFiles (GET netLeak scanCfgTest chainIdTest
      (some "0xA") (some "eth")) =
      some [{ name := "A.sol", path := "proxy/A.sol", content := "x" }] ∧
    outcomeIsProxy (GET netLeak scanCfgTest chainIdTest
      (some "0xA") (some "eth")) = some false ∧
    "proxy/".data.isPrefixOf "proxy/A.sol".data = true := by
  exact ⟨rfl, rfl, rfl⟩

def itemPlain : SourceCodeResultItem :=
  { SourceCode := "\x7b\x7b\"sources\":\x7b\"src/A.sol\":\"y\"\x7d\x7d\x7d"
    ContractName := "A", CompilerVersion := "v0.8.0"
    OptimizationUsed := "0", Runs := "0", Implementation := none }

def netPlain : Net := mkNet (okResp [itemPlain]) (.error ()) ""

def bPlain : Bundle :=
  { files := [{ name := "A.sol", path := "src/A.sol", content := "y" }]
    settings := defaultSettings itemPlain
    contractName := "A", compiler := "v0.8.0"
    optimization := some (.bool false), runs := some (.num "200")
    abi := .arr [], implementationAbi := .arr []
    isProxy := false, implementationAddress := none }

/-- Witness for C5 on a well-behaved non-proxy payload. -/
theorem C5_witness :
    "src/A.sol" ∈ sourcesKeys itemPlain.SourceCode ∨
    "src/A.sol" = itemPlain.ContractName ++ ".sol" := by
  have hall := C5_no_resolver_prefix netPlain "https://e/api" (some "k") "1"
    "0xA" bPlain (okResp [itemPlain]) itemPlain rfl rfl rfl rfl
  exact hall { name := "A.sol", path := "src/A.sol", content := "y" }
    (List.mem_singleton.mpr rfl)

/-! ## C6 — settings are always present in a resolved bundle -/

/-- C6 (amended): every successfully resolved bundle carries a truthy
(non-null) settings value; when the packed payload carried a *truthy*
`settings` value that value is used verbatim, and otherwise the synthesized
default is used, whose `optimizer.enabled` is `OptimizationUsed == "1"` and
whose `optimizer.runs` is `parseInt(Runs) || 200`. -/
theorem C6_settings_invariant (net : Net) (url : String)
    (apiKey : Option String) (chainId address : String) (b : Bundle)
    (data : ExplorerApiResponse) (item : SourceCodeResultItem)
    (h : GETtry net url apiKey chainId address = .ok (.success b))
    (hdata : (fetchExplorer net url chainId
      (explorerParams "getsourcecode" address (effectiveApiKey apiKey))).1 =
        .ok data)
    (hitem : getFirstSourceItem data = some item) :
    jsTruthy b.settings = true ∧
    (∀ v, (normalizeFilesBlock item).2 = some v →
      jsTruthy v = true ∧ b.settings = v) ∧
    ((normalizeFilesBlock item).2 = none →
      b.settings = defaultSettings item ∧
      optFields (defaultSettings item) =
        .ok (some (.bool (item.OptimizationUsed = "1")),
             some (.num (toString (runsValue item.Runs))))) := by
  obtain ⟨data', item', hdata', _, hitem', _, hset, _, _, _, _, _⟩ :=
    GETtry_success_inv net url apiKey chainId address b h
  rw [hdata] at hdata'
  cases hdata'
  rw [hitem] at hitem'
  cases hitem'
  refine ⟨?_, fun v hv => ?_, fun h0 => ?_⟩
  · rcases hs : (normalizeFilesBlock item).2 with _ | v
    · rw [hset, hs]
      rfl
    · rw [hset, hs]
      exact normalizeFilesBlock_settings_truthy item v hs
  · rw [hset, hv]
    exact ⟨normalizeFilesBlock_settings_truthy item v hv, rfl⟩
  · rw [hset, h0]
    exact ⟨rfl, rfl⟩

def itemC6 : SourceCodeResultItem :=
  { SourceCode := "\x7b\x7b\"settings\":false\x7d\x7d"
    ContractName := "C", CompilerVersion := "v0.8.0"
    OptimizationUsed := "1", Runs := "200", Implementation := none }

def netC6 : Net := mkNet (okResp [itemC6]) (.error ()) ""

/-- Counterexample to C6 as stated: the packed payload carries a `settings`
key (value `false`), yet the resolved bundle's settings is the synthesized
default, not the carried value — only truthy carried values are used. -/
theorem C6_counterexample :
    parseJson (interiorOf itemC6.SourceCode) =
      some (.obj [("settings", .bool false)]) ∧
    outcomeSettings (GET netC6 scanCfgTest chainIdTest
      (some "0xA") (some "eth")) = some (defaultSettings itemC6) ∧
    (defaultSettings itemC6 = Json.bool false → False) := by
  refine ⟨rfl, rfl, fun h => ?_⟩
  rw [show defaultSettings itemC6 = Json.obj
    [("remappings", .arr []),
     ("optimizer", .obj [("enabled", .bool true), ("runs", .num "200")]),
     ("metadata", .obj [("bytecodeHash", .str "none")]),
     ("outputSelection", .obj
       [("*", .obj
         [("*", .arr
           [.str "evm.bytecode", .str "evm.deployedBytecode", .str "devdoc",
            .str "userdoc", .str "metadata", .str "abi"])])])] from rfl] at h
  exact Json.noConfusion h

def bundleC6 : Bundle :=
  { files := []
    settings := defaultSettings itemC6
    contractName := "C", compiler := "v0.8.0"
    optimization := some (.bool true), runs := some (.num "200")
    abi := .arr [], implementationAbi := .arr []
    isProxy := false, implementationAddress := none }

/-- Witness for C6: the default-synthesis branch at a concrete bundle. -/
theorem C6_witness :
    jsTruthy bundleC6.settings = true ∧
    bundleC6.settings = defaultSettings itemC6 := by
  have h := C6_settings_invariant netC6 "https://e/api" (some "k") "1" "0xA"
    bundleC6 (okResp [itemC6]) itemC6 rfl rfl rfl
  exact ⟨h.1, (h.2.2 rfl).1⟩

/-! ## C1 — partial proxy bundles -/

theorem implFilesOf_empty (implData : ExplorerApiResponse)
    (h : implData.status ≠ some "1" ∨ getFirstSourceItem implData = none) :
    implFilesOf implData = [] := by
  unfold implFilesOf
  rcases h with h | h
  · rw [if_neg h]
  · by_cases hs : implData.status = some "1"
    · rw [if_pos hs, h]
    · rw [if_neg hs]

/-- C1 (amended): for a proxy resolution whose own source was fetched and
normalized successfully, when the implementation `getsourcecode` *call
completes* but indicates failure (non-success status or no result item), the
GET handler still returns a successful bundle whose file list is exactly the
`proxy/`-prefixed set; a *thrown* implementation fetch, by contrast,
propagates to the outer catch and yields a total failure (see the
counterexample). -/
theorem C1_proxy_files_alone (net : Net)
    (scanCfg : String → Option ScanConfig)
    (chainIdOf : String → Option String) (address chain : String)
    (cfg : ScanConfig)
    (data implData abiData implAbiData : ExplorerApiResponse)
    (item : SourceCodeResultItem) (implAddr : String) (optJ runsJ : Option Json)
    (haddr : address ≠ "") (hchain : chain ≠ "")
    (hcfg : scanCfg chain = some cfg)
    (h1 : (fetchExplorer net cfg.url ((chainIdOf chain).getD "")
      (explorerParams "getsourcecode" address (effectiveApiKey cfg.apiKey))).1 =
        .ok data)
    (h2 : data.status = some "1")
    (h3 : getFirstSourceItem data = some item)
    (h4 : item.SourceCode ≠ "")
    (h5 : normalizedImplementation item = some implAddr)
    (h6 : (fetchExplorer net cfg.url ((chainIdOf chain).getD "")
      (explorerParams "getsourcecode" implAddr (effectiveApiKey cfg.apiKey))).1 =
        .ok implData)
    (h7 : implData.status ≠ some "1" ∨ getFirstSourceItem implData = none)
    (h8 : (fetchExplorer net cfg.url ((chainIdOf chain).getD "")
      (explorerParams "getabi" address (effectiveApiKey cfg.apiKey))).1 =
        .ok abiData)
    (h9 : (fetchExplorer net cfg.url ((chainIdOf chain).getD "")
      (explorerParams "getabi" implAddr (effectiveApiKey cfg.apiKey))).1 =
        .ok implAbiData)
    (h10 : optFields (((normalizeFilesBlock item).2).getD
      (defaultSettings item)) = .ok (optJ, runsJ)) :
    outcomeFiles (GET net scanCfg chainIdOf (some address) (some chain)) =
      some (buildSourceFiles "proxy/" item) ∧
    outcomeIsProxy (GET net scanCfg chainIdOf (some address) (some chain)) =
      some true ∧
    outcomeImplAddr (GET net scanCfg chainIdOf (some address) (some chain)) =
      some (some implAddr) := by
  have hG : GET net scanCfg chainIdOf (some address) (some chain) =
      match GETtry net cfg.url cfg.apiKey ((chainIdOf chain).getD "") address with
      | .ok o => o
      | .error _ => .serverError := by
    simp [GET, haddr, hchain, hcfg]
  have hT : GETtry net cfg.url cfg.apiKey ((chainIdOf chain).getD "") address =
      finishBundle (buildSourceFiles "proxy/" item ++ implFilesOf implData)
        (((normalizeFilesBlock item).2).getD (defaultSettings item)) item
        (parseAbi abiData) (parseAbi implAbiData) true (some implAddr) := by
    unfold GETtry
    simp [h1, h2, h3, h4, h5, h6, h8, h9]
  have hFB : finishBundle (buildSourceFiles "proxy/" item ++ implFilesOf implData)
      (((normalizeFilesBlock item).2).getD (defaultSettings item)) item
      (parseAbi abiData) (parseAbi implAbiData) true (some implAddr) =
      .ok (.success
        { files := buildSourceFiles "proxy/" item ++ implFilesOf implData
          settings := ((normalizeFilesBlock item).2).getD (defaultSettings item)
          contractName := item.ContractName
          compiler := item.CompilerVersion
          optimization := optJ, runs := runsJ
          abi := parseAbi abiData, implementationAbi := parseAbi implAbiData
          isProxy := true, implementationAddress := some implAddr }) := by
    unfold finishBundle
    rw [h10]
  rw [hG, hT, hFB, implFilesOf_empty implData h7, List.append_nil]
  exact ⟨rfl, rfl, rfl⟩

def itemProxy : SourceCodeResultItem :=
  { SourceCode := "contract P \x7b\x7d", ContractName := "P"
    CompilerVersion := "v0.8.0", OptimizationUsed := "0", Runs := "0"
    Implementation := some "0xIMPL" }

def netC1cx : Net := mkNet (okResp [itemProxy]) (.error ()) "0xIMPL"

/-- Counterexample to C1 as stated: when the implementation source *fetch
itself errors* (rejected promise), the exception reaches the route's outer
catch and the whole request fails with a 500 — no partial proxy bundle is
returned, although the proxy's own source had been fetched and normalized. -/
theorem C1_counterexample :
    normalizedImplementation itemProxy = some "0xIMPL" ∧
    buildSourceFiles "proxy/" itemProxy =
      [{ name := "P.sol", path := "proxy/P.sol",
         content := "contract P \x7b\x7d" }] ∧
    GET netC1cx scanCfgTest chainIdTest (some "0xA") (some "eth") =
      .serverError := by
  exact ⟨rfl, rfl, rfl⟩

def notVerifiedResp : ExplorerApiResponse :=
  { status := some "0", message := some "NOTOK",
    result := some (.str "Contract source code not verified") }

def netC1w : Net := mkNet (okResp [itemProxy]) (.ok notVerifiedResp) "0xIMPL"

/-- Witness for C1: the implementation explorer call completes with a
non-success status, and the bundle with exactly the proxy file set is
returned. -/
theorem C1_witness :
    outcomeFiles (GET netC1w scanCfgTest chainIdTest
      (some "0xA") (some "eth")) =
      some (buildSourceFiles "proxy/" itemProxy) ∧
    outcomeIsProxy (GET netC1w scanCfgTest chainIdTest
      (some "0xA") (some "eth")) = some true ∧
    outcomeImplAddr (GET netC1w scanCfgTest chainIdTest
      (some "0xA") (some "eth")) = some (some "0xIMPL") := by
  exact C1_proxy_files_alone netC1w scanCfgTest chainIdTest "0xA" "eth"
    { url := "https://e/api", apiKey := some "k" }
    (okResp [itemProxy]) notVerifiedResp abiResp abiResp itemProxy "0xIMPL"
    (some (.bool false)) (some (.num "200"))
    (by decide) (by decide) rfl rfl rfl rfl (by decide) rfl rfl
    (Or.inl (by decide)) rfl rfl rfl

end MushAudit
